import Mathlib

/-!
Verification development for the earthquake-forecast core of `final_app.py`.

The embedding models the pandas/numpy computations over exact rationals:
every float produced by the program is a rational number, and the only
operation whose idealised value leaves ℚ is the square root taken by
`pandas.Series.std()`; those places are modelled with `Real.sqrt` over ℝ,
or — where the source only *compares* a standard deviation against a
rational bound — by the equivalent squared comparison on the variance
(with the equivalence proved as a lemma below).

Timestamps are modelled the way `datetime` represents them: a proleptic
Gregorian ordinal day count (1 = 0001-01-01, `date.toordinal`) plus a
fractional part of a day, as a single rational number of days.
`timedelta.days` is `Int.floor` of a difference of such numbers, and
`int()` of a nonnegative float is also `Int.floor`.
-/

/-- One catalog row, with the columns of `data/earthquakes.csv` plus the
`year`/`month` columns derived at load time (`final_app.py` lines 56-58). -/
structure Event where
  time : ℚ
  latitude : ℚ
  longitude : ℚ
  depth : ℚ
  magnitude : ℚ
  place : String
  zone : String
  year : ℤ
  month : ℤ
deriving DecidableEq, Repr

/-- A wall-clock instant `datetime.now()`: calendar date plus the elapsed
fraction of the day (hours, minutes, seconds, microseconds). -/
structure NowDT where
  year : ℕ
  month : ℕ
  day : ℕ
  frac : ℚ
deriving DecidableEq, Repr

/-- Gregorian leap-year test, as in `calendar.isleap` / `datetime`. -/
def isLeap (y : ℕ) : Bool := y % 4 == 0 && (y % 100 != 0 || y % 400 == 0)

/-- Days before the first of month `m` in a year (with the leap-day added
for months after February).  Out-of-range month numbers map to 0. -/
def daysBeforeMonth (leap : Bool) (m : ℤ) : ℕ :=
  let L : ℕ := if leap then 1 else 0
  match m with
  | 1 => 0
  | 2 => 31
  | 3 => 59 + L
  | 4 => 90 + L
  | 5 => 120 + L
  | 6 => 151 + L
  | 7 => 181 + L
  | 8 => 212 + L
  | 9 => 243 + L
  | 10 => 273 + L
  | 11 => 304 + L
  | 12 => 334 + L
  | _ => 0

/-- The leap-day correction `⌊n/4⌋ − ⌊n/100⌋ + ⌊n/400⌋` for `n = y − 1`
complete years, as in `date.toordinal`. -/
def leapDays (y : ℕ) : ℤ :=
  (((y - 1) / 4 : ℕ) : ℤ) - (((y - 1) / 100 : ℕ) : ℤ) + (((y - 1) / 400 : ℕ) : ℤ)

/-- Proleptic Gregorian ordinal of a calendar date, as `date.toordinal`:
`date(1,1,1).toordinal() = 1`. -/
def pyOrdinal (y : ℕ) (m : ℤ) (d : ℕ) : ℤ :=
  365 * ((y : ℤ) - 1) + leapDays y + (daysBeforeMonth (isLeap y) m : ℤ) + (d : ℤ)

/-- The rational timestamp (in days) of a wall-clock instant. -/
def nowOrd (nd : NowDT) : ℚ :=
  (pyOrdinal nd.year (nd.month : ℤ) nd.day : ℚ) + nd.frac

/-- Month (1..12) of the calendar day holding ordinal `t`; the standard
civil-from-days extraction (era/year-of-era arithmetic), used to model
`datetime.month` of a computed timestamp. -/
def monthOfOrd (t : ℤ) : ℤ :=
  let z := t + 305
  let era := Int.fdiv z 146097
  let doe := z - era * 146097
  let yoe := (doe - doe / 1460 + doe / 36524 - doe / 146096) / 365
  let doy := doe - (365 * yoe + yoe / 4 - yoe / 100)
  let mp := (5 * doy + 2) / 153
  if mp < 10 then mp + 3 else mp - 9

/-- Python `round()` to an integer: round half to even (banker's rounding). -/
def pyRound {α : Type} [LinearOrderedField α] [FloorRing α] (x : α) : ℤ :=
  if Int.fract x = 1 / 2 then (if Even ⌊x⌋ then ⌊x⌋ else ⌊x⌋ + 1) else round x

/-- Python `round(x, 1)`: decimal rounding to one fractional digit. -/
def pyRound1 (x : ℚ) : ℚ := (pyRound (10 * x) : ℚ) / 10

/-- Consecutive differences of a list of timestamps, floored to whole days:
`series.diff().dt.days.dropna()`. -/
def diffs : List ℚ → List ℤ
  | a :: b :: rest => ⌊b - a⌋ :: diffs (b :: rest)
  | _ => []

/-- Mean of a list of rationals (`Series.mean()`); 0 on the empty list,
which the program never hits on the paths modelled here. -/
def sampleMean (xs : List ℚ) : ℚ := xs.sum / (xs.length : ℚ)

/-- Sample variance with `ddof = 1`, i.e. the square of `Series.std()`.
The source stores and uses the standard deviation `√(sampleVar xs)`;
this development keeps the (rational) variance and takes `Real.sqrt`
at the points of use. -/
def sampleVar (xs : List ℚ) : ℚ :=
  (xs.map (fun x => (x - sampleMean xs) ^ 2)).sum / ((xs.length : ℚ) - 1)

/-- Element at an index with default 0 (`list[i]` on an in-range index). -/
def nthD : List ℚ → ℕ → ℚ
  | [], _ => 0
  | x :: _, 0 => x
  | _ :: xs, n + 1 => nthD xs n

/-- Linear-interpolation quantile of a list, as `Series.quantile(q)`
(sorts the values, position `h = (n−1)·q`, interpolates between the
neighbouring order statistics). -/
def quantileQ (xs : List ℚ) (q : ℚ) : ℚ :=
  let s := xs.insertionSort (· ≤ ·)
  let n := s.length
  let h : ℚ := ((n : ℚ) - 1) * q
  let i : ℕ := (⌊h⌋).toNat
  if i + 1 < n then nthD s i + (h - (i : ℚ)) * (nthD s (i + 1) - nthD s i)
  else nthD s i

/-- Decides `Real.sqrt v ≤ q` for a nonnegative rational `v` by squaring
(`sqrtLe_iff` below proves the equivalence).  Used where the source
compares a standard deviation with a rational expression. -/
def sqrtLe (v q : ℚ) : Bool := decide (0 ≤ q) && decide (v ≤ q ^ 2)

/-- The IQR-bound interval filter (`final_app.py` lines 295-303): quartiles
by linear interpolation, bounds `Q1 − 1.5·IQR` and `Q3 + 1.5·IQR` clamped
to a minimum of 30 and a maximum of 7300 days. -/
def iqrFiltered (ds : List ℤ) : List ℤ :=
  let dsq := ds.map (fun d : ℤ => ((d : ℚ)))
  let q1 := quantileQ dsq (1 / 4)
  let q3 := quantileQ dsq (3 / 4)
  let iqr := q3 - q1
  let lower := max 30 (q1 - 3 / 2 * iqr)
  let upper := min 7300 (q3 + 3 / 2 * iqr)
  ds.filter (fun d => decide (lower ≤ (d : ℚ)) && decide ((d : ℚ) ≤ upper))

/-- The fixed-bound interval filter `[30, 3650]` days (lines 307 and 309). -/
def fixedFiltered (ds : List ℤ) : List ℤ :=
  ds.filter (fun d => decide ((30 : ℤ) ≤ d) && decide (d ≤ 3650))

/-- Outlier filtering of the inter-event intervals (lines 293-309): with
more than 3 intervals use the IQR filter, but fall back to the fixed
bounds when fewer than `max(3, n·0.5)` intervals survive it; with 3 or
fewer intervals use the fixed bounds directly. -/
def filteredIntervals (ds : List ℤ) : List ℤ :=
  if 3 < ds.length then
    let f := iqrFiltered ds
    if ((f.length : ℚ) < max 3 ((ds.length : ℚ) / 2)) then fixedFiltered ds else f
  else fixedFiltered ds

/-- Ordering used by `Series.nlargest(3)` on a month-indexed count series
that was `sort_index()`ed: larger count first, ties kept in ascending
month order (`keep='first'`). -/
def countDescRel (p q : ℤ × ℕ) : Prop := q.2 < p.2 ∨ (p.2 = q.2 ∧ p.1 ≤ q.1)

instance : DecidableRel countDescRel := fun p q =>
  inferInstanceAs (Decidable (q.2 < p.2 ∨ (p.2 = q.2 ∧ p.1 ≤ q.1)))

/-- The per-month histogram of significant events,
`significant['month'].value_counts().sort_index()` (line 320), as an
assoc list ordered by ascending month and holding only months that occur. -/
def monthCounts (sig : List Event) : List (ℤ × ℕ) :=
  let months := sig.map Event.month
  ((months.dedup).insertionSort (· ≤ ·)).map (fun m => (m, months.count m))

/-- The three highest-count months, `monthly_counts.nlargest(3)` (line 331). -/
def nlargest3 (mc : List (ℤ × ℕ)) : List ℤ :=
  ((mc.insertionSort countDescRel).take 3).map Prod.fst

/-- Peak months (lines 323-331): months whose count is at least
`mean + 0.5·std` of the histogram, falling back to the 3 highest-count
months when none qualify.  `count ≥ μ + √v/2` is decided as
`sqrtLe v (2(count−μ))`.  With a single represented month the sample
std of the histogram is `NaN` and every comparison is false, so the
fallback is taken; the `2 ≤ mc.length` guard models that. -/
def peakMonths (mc : List (ℤ × ℕ)) : List ℤ :=
  let counts := mc.map (fun p => (p.2 : ℚ))
  let meanC := sampleMean counts
  let varC := sampleVar counts
  let pk := if 2 ≤ mc.length then
      mc.filter (fun p => sqrtLe varC (2 * ((p.2 : ℚ) - meanC)))
    else []
  if pk.isEmpty then nlargest3 mc else pk.map Prod.fst

/-- Label lookup `monthly_counts[m]`: `none` models the absent-label case. -/
def lookupCount : List (ℤ × ℕ) → ℤ → Option ℕ
  | [], _ => none
  | p :: ps, m => if p.1 = m then some p.2 else lookupCount ps m

/-- A seasonal bucket sum `monthly_counts[[m₁, m₂, m₃]].sum()` (lines
335-338).  pandas raises `KeyError` when any requested label is absent
from the histogram's index; that is the `none` outcome here. -/
def seasonSum (mc : List (ℤ × ℕ)) : List ℤ → Option ℕ
  | [] => some 0
  | m :: ms =>
    match lookupCount mc m, seasonSum mc ms with
    | some c, some s => some (c + s)
    | _, _ => none

/-- Data-quality score `_assess_data_quality` (lines 410-462), computed on
the significant subset: four additive sub-scores for time span, event
count, recency and magnitude range, capped at 100. -/
def dataQuality (sig : List Event) (nd : NowDT) : ℕ :=
  let ts := (sig.map Event.time).insertionSort (· ≤ ·)
  let ms := (sig.map Event.magnitude).insertionSort (· ≤ ·)
  let s1 : ℕ := if sig.length ≠ 0 then
      (let span : ℚ := ((⌊ts.getLastD 0 - ts.headD 0⌋ : ℚ)) / (36525 / 100)
       if 50 ≤ span then 25 else if 20 ≤ span then 20 else if 10 ≤ span then 15 else 10)
    else 0
  let s2 : ℕ := if 100 ≤ sig.length then 25 else if 50 ≤ sig.length then 20
    else if 20 ≤ sig.length then 15 else 10
  let s3 : ℕ := if sig.length ≠ 0 then
      (let since : ℤ := ⌊nowOrd nd - ts.getLastD 0⌋
       if since ≤ 365 then 25 else if since ≤ 1825 then 20 else if since ≤ 3650 then 15 else 5)
    else 0
  let s4 : ℕ := if sig.length ≠ 0 then
      (let range := ms.getLastD 0 - ms.headD 0
       if 3 ≤ range then 25 else if 2 ≤ range then 20 else if 1 ≤ range then 15 else 10)
    else 0
  min 100 (s1 + s2 + s3 + s4)

/-- The analyzer's output record (the dict built at lines 381-408).  The
source stores the standard deviations `std_interval_days`,
`magnitude_std` and `depth_std`; this record keeps their squares (the
sample variances, which are rational) — `√·` is applied at the points
of use. -/
structure Analysis where
  total_earthquakes : ℕ
  major_earthquakes : ℕ
  avg_interval_days : ℚ
  median_interval_days : ℚ
  var_interval_days : ℚ
  avg_interval_years : ℚ
  peak_months : List ℤ
  peak_season : String
  seasonal_confidence : ℚ
  monthly_distribution : List (ℤ × ℕ)
  seasonal_distribution : ℕ × ℕ × ℕ × ℕ
  avg_magnitude : ℚ
  max_magnitude : ℚ
  min_magnitude : ℚ
  var_magnitude : ℚ
  magnitude_trend : ℚ
  avg_depth : ℚ
  var_depth : ℚ
  shallow_count : ℕ
  deep_count : ℕ
  recent_frequency : ℚ
  recent_frequency_5yr : ℚ
  last_major_earthquake : ℚ
  time_intervals : List ℤ
  data_quality_score : ℕ
deriving DecidableEq, Repr

/-- Outcome of `analyze_earthquake_patterns`: `insufficient` is the
`return None` of the minimum-sample gates; `keyError` is the pandas
`KeyError` raised by a seasonal bucket lookup on a histogram missing one
of the requested months; `ok` carries the analysis record. -/
inductive AnalyzeResult where
  | insufficient : AnalyzeResult
  | keyError : AnalyzeResult
  | ok : Analysis → AnalyzeResult
deriving DecidableEq, Repr

/-- `analyze_earthquake_patterns` (lines 270-408).  The three sample gates
return `insufficient`; interval statistics are taken over the
outlier-filtered day intervals of the time-sorted significant events;
`last_major_earthquake` is the maximal significant timestamp (the
source's `significant.iloc[-1]['time']` after `sort_values('time')`,
which is never `None` past the `≥ 5` gate). -/
def analyze (l : List Event) (nd : NowDT) : AnalyzeResult :=
  if l.length < 10 then .insufficient else
  let sig := l.filter (fun e => decide ((4 : ℚ) ≤ e.magnitude))
  let major := l.filter (fun e => decide ((5 : ℚ) ≤ e.magnitude))
  if sig.length < 5 then .insufficient else
  let quality := dataQuality sig nd
  let ts := (sig.map Event.time).insertionSort (· ≤ ·)
  let dsF := filteredIntervals (diffs ts)
  if dsF.length < 3 then .insufficient else
  let dsFQ := dsF.map (fun d : ℤ => ((d : ℚ)))
  let mc := monthCounts sig
  match seasonSum mc [12, 1, 2], seasonSum mc [3, 4, 5],
        seasonSum mc [6, 7, 8], seasonSum mc [9, 10, 11] with
  | some w, some sp, some su, some au =>
    let seasons := [("winter", w), ("spring", sp), ("summer", su), ("autumn", au)]
    let pk := seasons.foldl (fun b p => if b.2 < p.2 then p else b) ("winter", w)
    let totalSeasonal := w + sp + su + au
    let sc : ℚ := if 0 < totalSeasonal then (pk.2 : ℚ) / (totalSeasonal : ℚ) else 1 / 4
    let r20 := sig.countP (fun e => decide ((nd.year : ℤ) - 20 ≤ e.year))
    let r5 := sig.countP (fun e => decide ((nd.year : ℤ) - 5 ≤ e.year))
    let mags := sig.map Event.magnitude
    let magsS := mags.insertionSort (· ≤ ·)
    let avgM := sampleMean mags
    let recent10 := sig.filter (fun e => decide ((nd.year : ℤ) - 10 ≤ e.year))
    let trend := if 3 ≤ recent10.length then
        let yrs := ((recent10.map Event.year).dedup).insertionSort (· ≤ ·)
        sampleMean (yrs.map (fun y =>
          sampleMean ((recent10.filter (fun e => e.year == y)).map Event.magnitude)))
      else avgM
    let depths := sig.map Event.depth
    .ok {
      total_earthquakes := sig.length
      major_earthquakes := major.length
      avg_interval_days := sampleMean dsFQ
      median_interval_days := quantileQ dsFQ (1 / 2)
      var_interval_days := sampleVar dsFQ
      avg_interval_years := sampleMean dsFQ / (36525 / 100)
      peak_months := peakMonths mc
      peak_season := pk.1
      seasonal_confidence := sc
      monthly_distribution := mc
      seasonal_distribution := (w, sp, su, au)
      avg_magnitude := avgM
      max_magnitude := magsS.getLastD 0
      min_magnitude := magsS.headD 0
      var_magnitude := sampleVar mags
      magnitude_trend := trend
      avg_depth := sampleMean depths
      var_depth := sampleVar depths
      shallow_count := sig.countP (fun e => decide (e.depth < (70 : ℚ)))
      deep_count := sig.countP (fun e => decide ((70 : ℚ) ≤ e.depth))
      recent_frequency := if 0 < r20 then (r20 : ℚ) / 20 else 0
      recent_frequency_5yr := if 0 < r5 then (r5 : ℚ) / 5 else 0
      last_major_earthquake := ts.getLastD 0
      time_intervals := dsF
      data_quality_score := quality
    }
  | _, _, _, _ => .keyError

/-- The blended interval of `predict_next_earthquake` (lines 471-482):
`0.6·median + 0.4·(365.25/recent_frequency)` when the 20-year frequency
is positive, else the median interval. -/
def weightedInterval (a : Analysis) : ℚ :=
  if 0 < a.recent_frequency then
    a.median_interval_days * (3 / 5) + (36525 / 100) / a.recent_frequency * (2 / 5)
  else a.median_interval_days

/-- Point estimate plus future-projection correction (lines 485-503):
start from last significant event + weighted interval; if not in the
future, advance by `int(days_overdue / w) + 1` whole cycles, and if the
result lands within 30 days of `now` (or before it), move to
`now + 30 + w`. -/
def expectedProjected (a : Analysis) (now : ℚ) : ℚ :=
  let w := weightedInterval a
  let e0 := a.last_major_earthquake + w
  if e0 ≤ now then
    let overdue : ℤ := ⌊now - e0⌋
    let cycles : ℤ := ⌊(overdue : ℚ) / w⌋
    let e1 := e0 + w * ((cycles : ℚ) + 1)
    if ⌊e1 - now⌋ < 30 then now + 30 + w else e1
  else e0

/-- Seasonal snapping (lines 506-521): when the estimate's month is not a
peak month, consider the 15th of the first peak month in the current and
next calendar year (keeping the wall clock's time of day, as
`datetime.replace` does) and adopt a candidate that is close enough to
the estimate — the current-year one only if it is still in the future. -/
def expectedSnapped (a : Analysis) (nd : NowDT) : ℚ :=
  let w := weightedInterval a
  let now := nowOrd nd
  let e := expectedProjected a now
  if monthOfOrd ⌊e⌋ ∉ a.peak_months ∧ a.peak_months ≠ [] then
    let tm := a.peak_months.headD 0
    let c1 : ℚ := (pyOrdinal nd.year tm 15 : ℚ) + nd.frac
    let c2 : ℚ := (pyOrdinal (nd.year + 1) tm 15 : ℚ) + nd.frac
    if now < c1 ∧ ((|⌊c1 - e⌋| : ℤ) : ℚ) < w * (1 / 2) then c1
    else if ((|⌊c2 - e⌋| : ℤ) : ℚ) < w * (1 / 2) then c2
    else e
  else e

/-- The dated outputs of a forecast: point estimate and both bounds of the
uncertainty window. -/
structure ForecastWindow where
  predicted_date : ℝ
  range_start : ℝ
  range_end : ℝ

/-- Trend weight for the magnitude estimate (line 648). -/
def trendWeight (a : Analysis) : ℚ :=
  if a.recent_frequency < a.recent_frequency_5yr then 3 / 10 else 1 / 5

/-- Trend-adjusted base magnitude (lines 650-654): blend the mean with the
10-year trend only when they differ by more than 0.15. -/
def trendAdjusted (a : Analysis) : ℚ :=
  if 3 / 20 < |a.magnitude_trend - a.avg_magnitude| then
    a.avg_magnitude * (1 - trendWeight a) + a.magnitude_trend * trendWeight a
  else a.avg_magnitude

/-- Predicted magnitude (lines 656-673).  `g` is the realised draw of the
Gaussian noise `np.random.normal(0, variation_factor)` (the
variation-factor tiers 0.2/0.35/0.5 chosen from the magnitude std only
scale the noise distribution, and every claim quantifies over every
draw, so the draw itself is the parameter).  The result is clamped to
`[max(4.0, min_magnitude), min(max_magnitude + 0.5, 9.5)]` and then
rounded to one decimal. -/
def predictedMagnitude (a : Analysis) (g : ℚ) : ℚ :=
  let predicted := trendAdjusted a + g
  let lo := max 4 a.min_magnitude
  let hi := min (a.max_magnitude + 1 / 2) (19 / 2)
  pyRound1 (max lo (min predicted hi))

/-- Data-volume confidence factor (line 544). -/
def dataVolumeScore (a : Analysis) : ℚ := min 25 ((a.total_earthquakes : ℚ) / 50 * 25)

/-- Data-recency confidence factor (lines 563-572). -/
def recencyScore (a : Analysis) (nd : NowDT) : ℕ :=
  let since : ℤ := ⌊nowOrd nd - a.last_major_earthquake⌋
  if since < 365 then 20 else if since < 1825 then 15 else if since < 3650 then 10 else 5

/-- Seasonal-pattern confidence factor (lines 574-588). -/
def seasonalScore (a : Analysis) : ℕ :=
  if a.peak_months.length ≠ 0 ∧ 6 < a.monthly_distribution.length then
    let vals := a.monthly_distribution.map (fun p => (p.2 : ℚ))
    let maxMonthly := vals.foldr max 0
    let avgMonthly := vals.sum / (vals.length : ℚ)
    if avgMonthly * (3 / 2) < maxMonthly then 15
    else if avgMonthly * (6 / 5) < maxMonthly then 10
    else 5
  else 5

/-- Geographic/depth-consistency confidence factor (lines 590-603). -/
def geoScore (a : Analysis) : ℕ :=
  let total := a.shallow_count + a.deep_count
  if 0 < total then
    let dc : ℚ := ((max a.shallow_count a.deep_count : ℕ) : ℚ) / (total : ℚ)
    if 4 / 5 < dc then 15 else if 3 / 5 < dc then 12 else 8
  else 8

/-- Sparse-data penalty (lines 611-617). -/
def sparsePenalty (a : Analysis) : ℤ :=
  if a.total_earthquakes < 10 then -15 else if a.total_earthquakes < 20 then -10 else 0

/-- Outdated-last-event penalty (lines 625-631). -/
def outdatedPenalty (a : Analysis) (nd : NowDT) : ℤ :=
  let since : ℤ := ⌊nowOrd nd - a.last_major_earthquake⌋
  if 7300 < since then -15 else if 3650 < since then -8 else 0

section RealValued

open scoped Classical

/-- The standard deviation of the filtered intervals, `std_interval` in
the source; stored as its square in `Analysis`. -/
noncomputable def stdInterval (a : Analysis) : ℝ := Real.sqrt a.var_interval_days

/-- The standard deviation of the significant magnitudes. -/
noncomputable def stdMagnitude (a : Analysis) : ℝ := Real.sqrt a.var_magnitude

/-- Pattern-regularity confidence factor (lines 547-560), from the
coefficient of variation `std/mean` of the filtered intervals. -/
noncomputable def regularityScore (a : Analysis) : ℝ :=
  if 0 < stdInterval a then
    (let cov := stdInterval a / (a.avg_interval_days : ℝ)
     if cov < 1 / 5 then 25 else if cov < 2 / 5 then 20 else if cov < 3 / 5 then 15 else 10)
  else 15

/-- High-variability penalty (lines 619-623). -/
noncomputable def variabilityPenalty (a : Analysis) : ℤ :=
  if 0 < stdInterval a ∧ 1 < stdInterval a / (a.avg_interval_days : ℝ) then -10 else 0

/-- The confidence percentage returned to the caller (lines 605-638 and
694): the five additive factors plus the three penalties, clamped to
`[35, 85]` and rounded. -/
noncomputable def confidencePercentage (a : Analysis) (nd : NowDT) : ℤ :=
  let base : ℝ := (dataVolumeScore a : ℚ) + regularityScore a
    + (recencyScore a nd : ℕ) + (seasonalScore a : ℕ) + (geoScore a : ℕ)
  let conf : ℝ := base
    + ((sparsePenalty a + variabilityPenalty a + outdatedPenalty a nd : ℤ) : ℝ)
  pyRound (max 35 (min 85 conf))

/-- Uncertainty window and final future shift (lines 523-537): half-width
`w · min(0.3, std/mean)` (0.2 when the std is zero); when the lower
bound is not strictly after `now`, the whole window and the point
estimate move forward by `(now − lower).days + 1` days. -/
noncomputable def forecastDates (a : Analysis) (nd : NowDT) : ForecastWindow :=
  let w := weightedInterval a
  let e := expectedSnapped a nd
  let now := nowOrd nd
  let uf : ℝ := if 0 < stdInterval a
    then min (3 / 10) (stdInterval a / (a.avg_interval_days : ℝ)) else 1 / 5
  let ud : ℝ := (w : ℝ) * uf
  let dstart := (e : ℝ) - ud
  let dend := (e : ℝ) + ud
  if dstart ≤ (now : ℝ) then
    let shift : ℤ := ⌊(now : ℝ) - dstart⌋ + 1
    { predicted_date := (e : ℝ) + (shift : ℝ)
      range_start := dstart + (shift : ℝ)
      range_end := dend + (shift : ℝ) }
  else { predicted_date := (e : ℝ), range_start := dstart, range_end := dend }

/-- Temporal consistency metric (line 375): `1 − std/mean` of the
intervals, 0.8 when the std is zero. -/
noncomputable def temporalConsistency (a : Analysis) : ℝ :=
  if 0 < stdInterval a then 1 - stdInterval a / (a.avg_interval_days : ℝ) else 4 / 5

/-- Magnitude consistency metric (line 376). -/
noncomputable def magnitudeConsistency (a : Analysis) : ℝ :=
  if 0 < stdMagnitude a then 1 - stdMagnitude a / (a.avg_magnitude : ℝ) else 4 / 5

end RealValued

/-- Depth consistency metric (line 377): dominant depth class share of the
significant events. -/
def depthConsistency (a : Analysis) : ℚ :=
  ((max a.shallow_count a.deep_count : ℕ) : ℚ) / (a.total_earthquakes : ℚ)

/-- Seasonal consistency metric (line 378): the seasonal confidence. -/
def seasonalConsistency (a : Analysis) : ℚ := a.seasonal_confidence

/-- Time ordering of catalog rows, `sort_values('time')`. -/
def Event.timeLE (a b : Event) : Prop := a.time ≤ b.time

instance : DecidableRel Event.timeLE := fun a b => inferInstanceAs (Decidable (a.time ≤ b.time))

instance : IsTotal Event Event.timeLE := ⟨fun a b => le_total a.time b.time⟩

instance : IsTrans Event Event.timeLE := ⟨fun _ _ _ h1 h2 => le_trans h1 h2⟩

/-- The latest timestamp of a catalog, `self.data['time'].max()` (line 61). -/
def maxTime (l : List Event) : ℚ := ((l.map Event.time).insertionSort (· ≤ ·)).getLastD 0

/-- The deduplication key of the spec: (timestamp, latitude, longitude,
magnitude). -/
def dedupKey (e : Event) : ℚ × ℚ × ℚ × ℚ := (e.time, e.latitude, e.longitude, e.magnitude)

/-- `DataFrame.drop_duplicates()` (line 69): full-row equality, keeping the
first occurrence in order. -/
def dropDuplicates (l : List Event) : List Event :=
  l.foldl (fun acc e => if e ∈ acc then acc else acc ++ [e]) []

/-- The live-feed merge of `load_data` (lines 61-69) together with the
timestamp filter of `_fetch_recent_earthquakes` (line 165): keep only
fetched events strictly after the catalog's latest timestamp, append,
sort by time, drop duplicate rows.  On an empty catalog the `max()` is
`NaN` and every `>` comparison is false, hence the `isEmpty` branch. -/
def mergeCatalog (hist recent : List Event) : List Event :=
  let newEvents := if hist.isEmpty then []
    else recent.filter (fun e => decide (maxTime hist < e.time))
  dropDuplicates ((hist ++ newEvents).insertionSort Event.timeLE)

/-- The record returned by `get_recent_earthquake_summary` (lines 198-247). -/
structure RecentSummary where
  total_recent : ℕ
  significant_recent : ℕ
  latest_earthquake : Option Event
  latest_significant : Option Event
  days_since_latest : Option ℤ
  days_since_significant : Option ℤ
deriving DecidableEq, Repr

/-- `get_recent_earthquake_summary` (lines 198-247) on a region's filtered
catalog: `none` for an empty region; the all-zero record when the
trailing 365 days hold no event; otherwise the most recent event, the
most recent significant event of the window (falling back to the most
recent significant event of the whole region history), and the day
counts since each. -/
def getRecentSummary (l : List Event) (nd : NowDT) : Option RecentSummary :=
  if l.length = 0 then none else
  let cd := l.insertionSort Event.timeLE
  let recent := cd.filter (fun e => decide (nowOrd nd - 365 ≤ e.time))
  if recent.length = 0 then
    some { total_recent := 0, significant_recent := 0, latest_earthquake := none,
           latest_significant := none, days_since_latest := none,
           days_since_significant := none }
  else
    let recentSig := recent.filter (fun e => decide ((4 : ℚ) ≤ e.magnitude))
    let latest := recent.getLast?
    let latestSig := if recentSig.length ≠ 0 then recentSig.getLast?
      else (cd.filter (fun e => decide ((4 : ℚ) ≤ e.magnitude))).getLast?
    some { total_recent := recent.length
           significant_recent := recentSig.length
           latest_earthquake := latest
           latest_significant := latestSig
           days_since_latest := latest.map (fun e => ⌊nowOrd nd - e.time⌋)
           days_since_significant := latestSig.map (fun e => ⌊nowOrd nd - e.time⌋) }

/-- Shorthand for a catalog row at a given calendar date: the `time` is the
date's ordinal, and the derived `year`/`month` columns hold that date's
year and month, exactly as the loader computes them. -/
def mkEv (y : ℕ) (m : ℤ) (d : ℕ) (mag : ℚ) : Event :=
  { time := (pyOrdinal y m d : ℚ), latitude := 10, longitude := 80, depth := 10,
    magnitude := mag, place := "", zone := "", year := (y : ℤ), month := m }

/-- Ten magnitude-5.0 events, one every June 15 of 2000-2009: passes every
minimum-sample gate, but no significant event falls in December, so the
winter bucket lookup `monthly_counts[[12, 1, 2]]` hits absent labels. -/
def exC5Events : List Event :=
  [mkEv 2000 6 15 5, mkEv 2001 6 15 5, mkEv 2002 6 15 5, mkEv 2003 6 15 5,
   mkEv 2004 6 15 5, mkEv 2005 6 15 5, mkEv 2006 6 15 5, mkEv 2007 6 15 5,
   mkEv 2008 6 15 5, mkEv 2009 6 15 5]

/-- A fixed generation time, 2042-06-01 00:00. -/
def exNow : NowDT := { year := 2042, month := 6, day := 1, frac := 0 }

/-- Sixteen significant events: one per month through 2001 (the January one
of magnitude 4.25, the rest 5.0), then four events spaced 3650 days
apart (2011-12-13, 2021-12-10, 2031-12-08, 2041-12-05).  All twelve
months are represented, every gate passes, and the filtered intervals
(ten ≈30-day gaps plus four 3650-day gaps) have a standard deviation
larger than their mean. -/
def exRichEvents : List Event :=
  [mkEv 2001 1 15 (17/4), mkEv 2001 2 15 5, mkEv 2001 3 15 5, mkEv 2001 4 15 5,
   mkEv 2001 5 15 5, mkEv 2001 6 15 5, mkEv 2001 7 15 5, mkEv 2001 8 15 5,
   mkEv 2001 9 15 5, mkEv 2001 10 15 5, mkEv 2001 11 15 5, mkEv 2001 12 15 5,
   mkEv 2011 12 13 5, mkEv 2021 12 10 5, mkEv 2031 12 8 5, mkEv 2041 12 5 5]

/-- The analysis record the analyzer produces on `exRichEvents` at `exNow`
(proved below in `exRich_analyze`). -/
def exRichAnalysis : Analysis :=
  { total_earthquakes := 16
    major_earthquakes := 15
    avg_interval_days := 7453/7
    median_interval_days := 31
    var_interval_days := 262001144/91
    avg_interval_years := 29812/10227
    peak_months := [12]
    peak_season := "winter"
    seasonal_confidence := 7/16
    monthly_distribution := [(1, 1), (2, 1), (3, 1), (4, 1), (5, 1), (6, 1),
      (7, 1), (8, 1), (9, 1), (10, 1), (11, 1), (12, 5)]
    seasonal_distribution := (7, 3, 3, 3)
    avg_magnitude := 317/64
    max_magnitude := 5
    min_magnitude := 17/4
    var_magnitude := 9/256
    magnitude_trend := 317/64
    avg_depth := 10
    var_depth := 0
    shallow_count := 16
    deep_count := 0
    recent_frequency := 1/10
    recent_frequency_5yr := 1/5
    last_major_earthquake := 745434
    time_intervals := [31, 31, 30, 31, 30, 31, 31, 30, 31, 30, 3650, 3650, 3650, 3650]
    data_quality_score := 65 }

/-- An analysis whose observed magnitude extremes are one-decimal values
(min 4.2, max 6.8), as used to witness the amended magnitude-bounds
claim; the other fields are arbitrary but plausible. -/
def exDecimalAnalysis : Analysis :=
  { exRichAnalysis with
    min_magnitude := 21/5
    max_magnitude := 34/5
    avg_magnitude := 5
    magnitude_trend := 5 }

/-- A single significant event about 400 days before `exNow`
(2041-04-27, magnitude 5): its region has no event at all in the
trailing 365-day window. -/
def exOldEvent : Event := mkEv 2041 4 27 5

/-- A sub-significant event inside the trailing window (2042-05-01,
magnitude 3.5). -/
def exFreshEvent : Event := mkEv 2042 5 1 (7/2)

/-! ## Generic lemmas about the numeric primitives -/

theorem pyRound_bounds {α : Type} [LinearOrderedField α] [FloorRing α] (x : α) :
    ⌊x⌋ ≤ pyRound x ∧ pyRound x ≤ ⌈x⌉ := by
  unfold pyRound
  split_ifs with h1 h2
  · exact ⟨le_refl _, Int.floor_le_ceil x⟩
  · refine ⟨by omega, ?_⟩
    have hfr : x - (⌊x⌋ : α) = 1 / 2 := by rw [Int.self_sub_floor]; exact h1
    have hlt : (⌊x⌋ : α) < x := by linarith
    have hic : (⌊x⌋ : α) < (⌈x⌉ : α) := lt_of_lt_of_le hlt (Int.le_ceil x)
    have : ⌊x⌋ < ⌈x⌉ := by exact_mod_cast hic
    omega
  · rw [round_eq]
    constructor
    · exact Int.floor_le_floor (by linarith)
    · by_contra hc
      push_neg at hc
      have h2 : ⌈x⌉ + 1 ≤ ⌊x + 1 / 2⌋ := by omega
      have h3 : ((⌈x⌉ + 1 : ℤ) : α) ≤ x + 1 / 2 := Int.le_floor.mp h2
      have h4 : x ≤ (⌈x⌉ : α) := Int.le_ceil x
      push_cast at h3
      linarith

theorem pyRound_clamp_bounds (c : ℝ) :
    35 ≤ pyRound (max 35 (min 85 c)) ∧ pyRound (max 35 (min 85 c)) ≤ 85 := by
  obtain ⟨hlo, hhi⟩ := pyRound_bounds (max 35 (min 85 c))
  constructor
  · have h1 : ((35 : ℤ) : ℝ) ≤ max 35 (min 85 c) := by
      simpa using le_max_left (35 : ℝ) (min 85 c)
    exact le_trans (Int.le_floor.mpr h1) hlo
  · have h2 : max 35 (min 85 c) ≤ ((85 : ℤ) : ℝ) := by
      have := min_le_left (85 : ℝ) c
      simp only [Int.cast_ofNat]
      exact max_le (by norm_num) (by simpa using this)
    exact le_trans hhi (Int.ceil_le.mpr h2)

theorem sqrtLe_iff {v q : ℚ} (hv : 0 ≤ v) :
    sqrtLe v q = true ↔ Real.sqrt (v : ℝ) ≤ (q : ℝ) := by
  unfold sqrtLe
  simp only [Bool.and_eq_true, decide_eq_true_eq]
  constructor
  · rintro ⟨hq, hvq⟩
    have h1 : Real.sqrt (v : ℝ) ≤ Real.sqrt ((q : ℝ) ^ 2) := by
      apply Real.sqrt_le_sqrt
      exact_mod_cast hvq
    rwa [Real.sqrt_sq (by exact_mod_cast hq)] at h1
  · intro h
    have hq : (0 : ℝ) ≤ (q : ℝ) := le_trans (Real.sqrt_nonneg _) h
    refine ⟨by exact_mod_cast hq, ?_⟩
    have h2 : ((v : ℝ)) ≤ (q : ℝ) ^ 2 := by
      calc (v : ℝ) = Real.sqrt (v : ℝ) ^ 2 := by
            rw [Real.sq_sqrt (by exact_mod_cast hv)]
        _ ≤ (q : ℝ) ^ 2 := by
            apply pow_le_pow_left (Real.sqrt_nonneg _) h
    exact_mod_cast h2

theorem pyRound1_mem {lo hi x : ℚ} (hl : ∃ i : ℤ, lo = i / 10) (hh : ∃ j : ℤ, hi = j / 10)
    (h1 : lo ≤ x) (h2 : x ≤ hi) : lo ≤ pyRound1 x ∧ pyRound1 x ≤ hi := by
  obtain ⟨i, rfl⟩ := hl
  obtain ⟨j, rfl⟩ := hh
  obtain ⟨hfl, hfu⟩ := pyRound_bounds (10 * x : ℚ)
  have hi10 : ((i : ℤ) : ℚ) ≤ 10 * x := by
    have := mul_le_mul_of_nonneg_left h1 (by norm_num : (0 : ℚ) ≤ 10)
    calc ((i : ℤ) : ℚ) = 10 * ((i : ℚ) / 10) := by ring
      _ ≤ 10 * x := this
  have hj10 : 10 * x ≤ ((j : ℤ) : ℚ) := by
    have := mul_le_mul_of_nonneg_left h2 (by norm_num : (0 : ℚ) ≤ 10)
    calc 10 * x ≤ 10 * ((j : ℚ) / 10) := this
      _ = ((j : ℤ) : ℚ) := by ring
  have hpl : i ≤ pyRound (10 * x) := le_trans (Int.le_floor.mpr hi10) hfl
  have hpu : pyRound (10 * x) ≤ j := le_trans hfu (Int.ceil_le.mpr hj10)
  unfold pyRound1
  have hpl' : ((i : ℤ) : ℚ) ≤ (pyRound (10 * x) : ℚ) := by exact_mod_cast hpl
  have hpu' : ((pyRound (10 * x) : ℤ) : ℚ) ≤ ((j : ℤ) : ℚ) := by exact_mod_cast hpu
  constructor
  · linarith
  · linarith

/-! ## Concrete evaluations of the analyzer -/

set_option maxRecDepth 100000

theorem exRich_analyze : analyze exRichEvents exNow = .ok exRichAnalysis := by
  have h1 : exRichEvents.length = 16 := by norm_num [exRichEvents]
  have h2 : List.filter (fun e => decide ((4:ℚ) ≤ e.magnitude)) exRichEvents = exRichEvents := by
    norm_num [exRichEvents, mkEv, List.filter]
  have h3 : (List.filter (fun e => decide ((5:ℚ) ≤ e.magnitude)) exRichEvents).length = 15 := by
    norm_num [exRichEvents, mkEv, List.filter]
  have h4 : dataQuality exRichEvents exNow = 65 := by
    norm_num [dataQuality, exRichEvents, exNow, mkEv, nowOrd, pyOrdinal, leapDays,
      daysBeforeMonth, isLeap, List.insertionSort, List.orderedInsert]
  have h5 : List.insertionSort (· ≤ ·) (List.map Event.time exRichEvents) =
      [730500, 730531, 730559, 730590, 730620, 730651, 730681, 730712, 730743, 730773,
       730804, 730834, 734484, 738134, 741784, 745434] := by
    norm_num [exRichEvents, mkEv, pyOrdinal, leapDays, daysBeforeMonth, isLeap,
      List.insertionSort, List.orderedInsert]
  have h6 : diffs [730500, 730531, 730559, 730590, 730620, 730651, 730681, 730712, 730743,
      730773, 730804, 730834, 734484, 738134, 741784, 745434] =
      [31, 28, 31, 30, 31, 30, 31, 31, 30, 31, 30, 3650, 3650, 3650, 3650] := by
    norm_num [diffs]
  have h7 : filteredIntervals [31, 28, 31, 30, 31, 30, 31, 31, 30, 31, 30, 3650, 3650, 3650, 3650] =
      [31, 31, 30, 31, 30, 31, 31, 30, 31, 30, 3650, 3650, 3650, 3650] := by
    norm_num [filteredIntervals, iqrFiltered, fixedFiltered, quantileQ, nthD,
      List.insertionSort, List.orderedInsert, Int.toNat]
  have h8 : List.map (fun d : ℤ => ((d:ℚ))) [31, 31, 30, 31, 30, 31, 31, 30, 31, 30, 3650, 3650, 3650, 3650] =
      [(31:ℚ), 31, 30, 31, 30, 31, 31, 30, 31, 30, 3650, 3650, 3650, 3650] := by
    norm_num
  have h9 : sampleMean [(31:ℚ), 31, 30, 31, 30, 31, 31, 30, 31, 30, 3650, 3650, 3650, 3650] = 7453/7 := by
    norm_num [sampleMean]
  have h10 : quantileQ [(31:ℚ), 31, 30, 31, 30, 31, 31, 30, 31, 30, 3650, 3650, 3650, 3650] (1/2) = 31 := by
    norm_num [quantileQ, nthD, List.insertionSort, List.orderedInsert, Int.toNat]
  have h11 : sampleVar [(31:ℚ), 31, 30, 31, 30, 31, 31, 30, 31, 30, 3650, 3650, 3650, 3650] = 262001144/91 := by
    norm_num [sampleVar, sampleMean]
  have h12 : monthCounts exRichEvents =
      [((1:ℤ), 1), (2, 1), (3, 1), (4, 1), (5, 1), (6, 1), (7, 1), (8, 1), (9, 1), (10, 1), (11, 1), (12, 5)] := by
    norm_num [monthCounts, exRichEvents, mkEv, List.dedup, List.insertionSort,
      List.orderedInsert, List.count, List.countP, List.countP.go, cond_eq_if, beq_iff_eq]
  have h13 : peakMonths [((1:ℤ), 1), (2, 1), (3, 1), (4, 1), (5, 1), (6, 1), (7, 1), (8, 1), (9, 1), (10, 1), (11, 1), (12, 5)] = [12] := by
    norm_num [peakMonths, sampleMean, sampleVar, sqrtLe, nlargest3, countDescRel,
      List.insertionSort, List.orderedInsert, List.filter, List.take]
  have h14a : seasonSum [((1:ℤ), 1), (2, 1), (3, 1), (4, 1), (5, 1), (6, 1), (7, 1), (8, 1), (9, 1), (10, 1), (11, 1), (12, 5)] [12, 1, 2] = some 7 := by
    norm_num [seasonSum, lookupCount]
  have h14b : seasonSum [((1:ℤ), 1), (2, 1), (3, 1), (4, 1), (5, 1), (6, 1), (7, 1), (8, 1), (9, 1), (10, 1), (11, 1), (12, 5)] [3, 4, 5] = some 3 := by
    norm_num [seasonSum, lookupCount]
  have h14c : seasonSum [((1:ℤ), 1), (2, 1), (3, 1), (4, 1), (5, 1), (6, 1), (7, 1), (8, 1), (9, 1), (10, 1), (11, 1), (12, 5)] [6, 7, 8] = some 3 := by
    norm_num [seasonSum, lookupCount]
  have h14d : seasonSum [((1:ℤ), 1), (2, 1), (3, 1), (4, 1), (5, 1), (6, 1), (7, 1), (8, 1), (9, 1), (10, 1), (11, 1), (12, 5)] [9, 10, 11] = some 3 := by
    norm_num [seasonSum, lookupCount]
  have h16 : exRichEvents.countP (fun e => decide ((exNow.year:ℤ) - 20 ≤ e.year)) = 2 := by
    norm_num [exRichEvents, exNow, mkEv, List.countP, List.countP.go]
  have h17 : exRichEvents.countP (fun e => decide ((exNow.year:ℤ) - 5 ≤ e.year)) = 1 := by
    norm_num [exRichEvents, exNow, mkEv, List.countP, List.countP.go]
  have h18 : List.map Event.magnitude exRichEvents =
      [(17/4:ℚ), 5, 5, 5, 5, 5, 5, 5, 5, 5, 5, 5, 5, 5, 5, 5] := by
    norm_num [exRichEvents, mkEv]
  have h19 : sampleMean [(17/4:ℚ), 5, 5, 5, 5, 5, 5, 5, 5, 5, 5, 5, 5, 5, 5, 5] = 317/64 := by
    norm_num [sampleMean]
  have h20 : sampleVar [(17/4:ℚ), 5, 5, 5, 5, 5, 5, 5, 5, 5, 5, 5, 5, 5, 5, 5] = 9/256 := by
    norm_num [sampleVar, sampleMean]
  have h21 : List.insertionSort (· ≤ ·) [(17/4:ℚ), 5, 5, 5, 5, 5, 5, 5, 5, 5, 5, 5, 5, 5, 5, 5] =
      [(17/4:ℚ), 5, 5, 5, 5, 5, 5, 5, 5, 5, 5, 5, 5, 5, 5, 5] := by
    norm_num [List.insertionSort, List.orderedInsert]
  have h22 : (exRichEvents.filter (fun e => decide ((exNow.year:ℤ) - 10 ≤ e.year))).length = 1 := by
    norm_num [exRichEvents, exNow, mkEv, List.filter]
  have h23 : List.map Event.depth exRichEvents = [(10:ℚ), 10, 10, 10, 10, 10, 10, 10, 10, 10, 10, 10, 10, 10, 10, 10] := by
    norm_num [exRichEvents, mkEv]
  have h24 : sampleMean [(10:ℚ), 10, 10, 10, 10, 10, 10, 10, 10, 10, 10, 10, 10, 10, 10, 10] = 10 := by
    norm_num [sampleMean]
  have h25 : sampleVar [(10:ℚ), 10, 10, 10, 10, 10, 10, 10, 10, 10, 10, 10, 10, 10, 10, 10] = 0 := by
    norm_num [sampleVar, sampleMean]
  have h26 : exRichEvents.countP (fun e => decide (e.depth < (70:ℚ))) = 16 := by
    norm_num [exRichEvents, mkEv, List.countP, List.countP.go]
  have h27 : exRichEvents.countP (fun e => decide ((70:ℚ) ≤ e.depth)) = 0 := by
    norm_num [exRichEvents, mkEv, List.countP, List.countP.go]
  simp only [analyze, h1, h2, h3, h4, h5, h6, h7, h8, h9, h10, h11, h12, h13,
    h14a, h14b, h14c, h14d, h16, h17, h18, h19, h20, h21, h22, h23, h24, h25, h26, h27]
  norm_num [exRichAnalysis, List.foldl, List.getLastD, List.headD]

/-- C5: the code, not the claim, is at fault.  On ten significant events
that all fall in June (June 15 of 2000-2009) every minimum-sample gate
passes, yet the analyzer raises a pandas `KeyError` in the seasonal
bucket sums because `monthly_counts[[12, 1, 2]]` selects labels absent
from the histogram — instead of treating the zero-count months of the
bucket as zero and returning a `PatternAnalysis`, as the claim states. -/
theorem analyze_keyError_on_missing_month : analyze exC5Events exNow = .keyError := by
  norm_num [analyze, exC5Events, exNow, mkEv, dataQuality, monthCounts, peakMonths,
    nlargest3, seasonSum, lookupCount, sqrtLe, filteredIntervals, iqrFiltered,
    fixedFiltered, quantileQ, nthD, sampleMean, sampleVar, diffs, nowOrd, pyOrdinal,
    leapDays, daysBeforeMonth, isLeap, countDescRel, Int.toNat,
    List.insertionSort, List.orderedInsert, List.dedup, List.count, List.countP,
    List.countP.go, cond_eq_if, beq_iff_eq,
    List.filter, List.foldl, List.foldr, List.take, List.sum, List.isEmpty]

/-- C4: for every analysis record and every generation time, the confidence
percentage returned to the caller — the rounded value obtained after
summing the five additive factors and the three penalties and clamping —
lies within [35, 85] inclusive. -/
theorem confidencePercentage_within_35_85 (a : Analysis) (nd : NowDT) :
    35 ≤ confidencePercentage a nd ∧ confidencePercentage a nd ≤ 85 := by
  unfold confidencePercentage
  exact pyRound_clamp_bounds _

/-- C3 counterexample: on the analyzer's own output for `exRichEvents`
(whose smallest significant magnitude is 4.25) a sufficiently negative
noise draw clamps the magnitude to exactly 4.25, and rounding to one
decimal then returns 4.2 — strictly below the claimed lower bound
`max(4.0, analysis.min_magnitude) = 4.25`. -/
theorem predictedMagnitude_escapes_bounds :
    analyze exRichEvents exNow = .ok exRichAnalysis ∧
    predictedMagnitude exRichAnalysis (-50) < max 4 exRichAnalysis.min_magnitude := by
  refine ⟨exRich_analyze, ?_⟩
  have h1 : trendAdjusted exRichAnalysis = 317/64 := by
    norm_num [trendAdjusted, trendWeight, exRichAnalysis]
  have hval : predictedMagnitude exRichAnalysis (-50) = pyRound1 (17/4) := by
    unfold predictedMagnitude
    rw [h1]
    norm_num [exRichAnalysis]
  have hfr : Int.fract ((85:ℚ)/2) = 1/2 := by
    have : ⌊(85:ℚ)/2⌋ = 42 := by norm_num
    rw [Int.fract, this]
    norm_num
  have hround : pyRound1 (17/4) = 21/5 := by
    unfold pyRound1 pyRound
    norm_num [hfr]
    rw [if_pos (by decide : Even (42:ℤ))]
    norm_num
  rw [hval, hround]
  norm_num [exRichAnalysis]

/-- C3 amended: for every analysis whose observed minimum and maximum
magnitudes are one-decimal values (as written in the claim's bounds, so
that the clamp interval is closed under decimal rounding) and whose
clamp interval is nonempty, every draw of the Gaussian magnitude noise
yields a predicted magnitude within
`[max(4.0, min_magnitude), min(max_magnitude + 0.5, 9.5)]`. -/
theorem predictedMagnitude_within_bounds (a : Analysis) (g : ℚ)
    (hm : ∃ i : ℤ, a.min_magnitude = i / 10) (hM : ∃ j : ℤ, a.max_magnitude = j / 10)
    (hne : max 4 a.min_magnitude ≤ min (a.max_magnitude + 1 / 2) (19 / 2)) :
    max 4 a.min_magnitude ≤ predictedMagnitude a g ∧
    predictedMagnitude a g ≤ min (a.max_magnitude + 1 / 2) (19 / 2) := by
  unfold predictedMagnitude
  apply pyRound1_mem
  · obtain ⟨i, hi⟩ := hm
    refine ⟨max 40 i, ?_⟩
    rw [hi]
    rcases le_total ((i:ℚ)/10) 4 with h | h
    · rw [max_eq_left h, max_eq_left (show i ≤ 40 by
        exact_mod_cast (by linarith : (i:ℚ) ≤ 40))]
      norm_num
    · rw [max_eq_right h, max_eq_right (show (40:ℤ) ≤ i by
        exact_mod_cast (by linarith : (40:ℚ) ≤ (i:ℚ)))]
  · obtain ⟨j, hj⟩ := hM
    refine ⟨min (j + 5) 95, ?_⟩
    rw [hj]
    rcases le_total ((j:ℚ)/10 + 1/2) (19/2) with h | h
    · rw [min_eq_left h, min_eq_left (show (j + 5 : ℤ) ≤ 95 by
        exact_mod_cast (by linarith : ((j:ℚ) + 5) ≤ 95))]
      push_cast
      ring
    · rw [min_eq_right h, min_eq_right (show (95:ℤ) ≤ j + 5 by
        exact_mod_cast (by linarith : (95:ℚ) ≤ (j:ℚ) + 5))]
      norm_num
  · exact le_max_left _ _
  · exact max_le hne (min_le_right _ _)

/-- Witness for the amended magnitude-bounds claim at a concrete analysis
with one-decimal magnitude extremes (min 4.2, max 6.8) and the noise
draw 7/3. -/
theorem predictedMagnitude_within_bounds_witness :
    max 4 exDecimalAnalysis.min_magnitude ≤ predictedMagnitude exDecimalAnalysis (7/3) ∧
    predictedMagnitude exDecimalAnalysis (7/3) ≤ min (exDecimalAnalysis.max_magnitude + 1 / 2) (19 / 2) :=
  predictedMagnitude_within_bounds exDecimalAnalysis (7/3)
    ⟨42, by norm_num [exDecimalAnalysis]⟩
    ⟨68, by norm_num [exDecimalAnalysis]⟩
    (by norm_num [exDecimalAnalysis])

/-- C2: whenever a region has fewer than 10 events, or fewer than 5
significant (magnitude ≥ 4.0) events, or fewer than 3 inter-event
intervals survive the outlier filtering, the analyzer returns the single
explicit insufficient-data outcome and never a `PatternAnalysis`. -/
theorem analyze_insufficient_of_gates (l : List Event) (nd : NowDT)
    (h : l.length < 10 ∨
      (l.filter (fun e => decide ((4 : ℚ) ≤ e.magnitude))).length < 5 ∨
      (filteredIntervals (diffs (((l.filter (fun e => decide ((4 : ℚ) ≤ e.magnitude))).map
        Event.time).insertionSort (· ≤ ·)))).length < 3) :
    analyze l nd = .insufficient := by
  simp only [analyze]
  rcases h with h | h | h
  · rw [if_pos h]
  · by_cases g1 : l.length < 10
    · rw [if_pos g1]
    · rw [if_neg g1, if_pos h]
  · by_cases g1 : l.length < 10
    · rw [if_pos g1]
    · by_cases g2 : (l.filter (fun e => decide ((4 : ℚ) ≤ e.magnitude))).length < 5
      · rw [if_neg g1, if_pos g2]
      · rw [if_neg g1, if_neg g2, if_pos h]

/-- Witness: the empty region set trips the first gate. -/
theorem analyze_insufficient_witness : analyze [] exNow = .insufficient :=
  analyze_insufficient_of_gates [] exNow (Or.inl (by norm_num))

/-- C6 counterexample: on the four raw intervals [1, 2, 3000, 7000] the IQR
filter keeps [3000, 7000] — it removes exactly half, not more than half —
yet the code falls back to the fixed bounds (because fewer than
`max(3, n/2) = 3` intervals survived) and produces [3000], a different
surviving set than the claim requires. -/
theorem filteredIntervals_fallback_counterexample :
    iqrFiltered [1, 2, 3000, 7000] = [3000, 7000] ∧
    filteredIntervals [1, 2, 3000, 7000] = [3000] := by
  constructor
  · norm_num [iqrFiltered, quantileQ, nthD, List.insertionSort, List.orderedInsert,
      Int.toNat, List.filter]
  · norm_num [filteredIntervals, iqrFiltered, fixedFiltered, quantileQ, nthD,
      List.insertionSort, List.orderedInsert, Int.toNat, List.filter]

/-- C6 amended: with at least 4 intervals the analyzer filters by the
clamped IQR bounds and falls back to the fixed-bound filter exactly when
the IQR filter removes more than half of the intervals *or leaves fewer
than 3 survivors*; otherwise it keeps the IQR-filtered intervals. -/
theorem filteredIntervals_fallback_iff (ds : List ℤ) (h : 3 < ds.length) :
    filteredIntervals ds =
      if 2 * (iqrFiltered ds).length < ds.length ∨ (iqrFiltered ds).length < 3
      then fixedFiltered ds else iqrFiltered ds := by
  have hcond : (((iqrFiltered ds).length : ℚ) < max 3 ((ds.length : ℚ) / 2)) ↔
      (2 * (iqrFiltered ds).length < ds.length ∨ (iqrFiltered ds).length < 3) := by
    rw [lt_max_iff]
    have c1 : (((iqrFiltered ds).length : ℚ) < 3) ↔ ((iqrFiltered ds).length < 3) := by
      exact_mod_cast Iff.rfl
    have c2 : (((iqrFiltered ds).length : ℚ) < (ds.length : ℚ) / 2) ↔
        (2 * (iqrFiltered ds).length < ds.length) := by
      rw [lt_div_iff (by norm_num : (0:ℚ) < 2), mul_comm]
      exact_mod_cast Iff.rfl
    rw [c1, c2, or_comm]
  simp only [filteredIntervals]
  rw [if_pos h]
  by_cases hc : 2 * (iqrFiltered ds).length < ds.length ∨ (iqrFiltered ds).length < 3
  · rw [if_pos (hcond.mpr hc), if_pos hc]
  · rw [if_neg (fun hh => hc (hcond.mp hh)), if_neg hc]

/-- Witness for the amended fallback rule at the concrete interval list
[1, 2, 3000, 7000]. -/
theorem filteredIntervals_fallback_iff_witness :
    3 < ([1, 2, 3000, 7000] : List ℤ).length ∧
    filteredIntervals [1, 2, 3000, 7000] =
      (if 2 * (iqrFiltered [1, 2, 3000, 7000]).length < ([1, 2, 3000, 7000] : List ℤ).length ∨
          (iqrFiltered [1, 2, 3000, 7000]).length < 3
       then fixedFiltered [1, 2, 3000, 7000] else iqrFiltered [1, 2, 3000, 7000]) :=
  ⟨by norm_num, filteredIntervals_fallback_iff [1, 2, 3000, 7000] (by norm_num)⟩

/-! ## Analyzer invariants -/

theorem mem_filteredIntervals_lower {ds : List ℤ} {d : ℤ}
    (hd : d ∈ filteredIntervals ds) : 30 ≤ d := by
  have hfix : ∀ x ∈ fixedFiltered ds, (30:ℤ) ≤ x := by
    intro x hx
    simp only [fixedFiltered, List.mem_filter, Bool.and_eq_true, decide_eq_true_eq] at hx
    exact hx.2.1
  have hiqr : ∀ x ∈ iqrFiltered ds, (30:ℤ) ≤ x := by
    intro x hx
    simp only [iqrFiltered, List.mem_filter, Bool.and_eq_true, decide_eq_true_eq] at hx
    have h30 : (30:ℚ) ≤ (x:ℚ) := le_trans (le_max_left _ _) hx.2.1
    exact_mod_cast h30
  simp only [filteredIntervals] at hd
  split_ifs at hd
  · exact hfix d hd
  · exact hiqr d hd
  · exact hfix d hd

theorem mul_length_le_sum (c : ℚ) :
    ∀ (xs : List ℚ), (∀ x ∈ xs, c ≤ x) → c * (xs.length : ℚ) ≤ xs.sum := by
  intro xs
  induction xs with
  | nil => intro _; simp
  | cons a t ih =>
    intro hb
    simp only [List.length_cons, List.sum_cons]
    have h1 := hb a (List.mem_cons_self a t)
    have h2 := ih (fun x hx => hb x (List.mem_cons_of_mem a hx))
    have h3 : c * (((t.length : ℕ) : ℚ) + 1) = c * (t.length : ℚ) + c := by ring
    push_cast
    rw [h3]
    linarith

theorem sampleMean_lower {c : ℚ} {xs : List ℚ} (hne : xs.length ≠ 0)
    (hb : ∀ x ∈ xs, c ≤ x) : c ≤ sampleMean xs := by
  have hlen : (0:ℚ) < (xs.length : ℚ) := by
    have : 0 < xs.length := Nat.pos_of_ne_zero hne
    exact_mod_cast this
  rw [sampleMean, le_div_iff hlen]
  exact mul_length_le_sum c xs hb

theorem foldl_season_pick (init : String × ℕ) :
    ∀ (ls : List (String × ℕ)),
      (ls.foldl (fun b p => if b.2 < p.2 then p else b) init) = init ∨
      (ls.foldl (fun b p => if b.2 < p.2 then p else b) init) ∈ ls := by
  intro ls
  induction ls generalizing init with
  | nil => simp
  | cons a t ih =>
    simp only [List.foldl_cons]
    rcases ih (if init.2 < a.2 then a else init) with h | h
    · rw [h]
      by_cases hc : init.2 < a.2
      · rw [if_pos hc]
        right
        exact List.mem_cons_self a t
      · rw [if_neg hc]
        left
        rfl
    · right
      exact List.mem_cons_of_mem a h

/-- C9 amended: every `PatternAnalysis` produced by the analyzer has its
depth and seasonal consistency metrics within [0, 1] and its temporal
and magnitude consistency metrics at most 1, with the temporal and
magnitude metrics equal to 0.8 whenever the corresponding standard
deviation is zero.  (The temporal and magnitude metrics are *not*
clamped below: they are `1 − std/mean` and go negative whenever the
coefficient of variation exceeds 1, as the counterexample shows.) -/
theorem analyze_ok_metrics (l : List Event) (nd : NowDT) (a : Analysis)
    (h : analyze l nd = .ok a) :
    (0 ≤ depthConsistency a ∧ depthConsistency a ≤ 1) ∧
    (0 ≤ seasonalConsistency a ∧ seasonalConsistency a ≤ 1) ∧
    temporalConsistency a ≤ 1 ∧ magnitudeConsistency a ≤ 1 ∧
    (a.var_interval_days = 0 → temporalConsistency a = 4 / 5) ∧
    (a.var_magnitude = 0 → magnitudeConsistency a = 4 / 5) := by
  simp only [analyze] at h
  by_cases g1 : l.length < 10
  · rw [if_pos g1] at h
    exact absurd h (by simp)
  rw [if_neg g1] at h
  by_cases g2 : (l.filter (fun e => decide ((4 : ℚ) ≤ e.magnitude))).length < 5
  · rw [if_pos g2] at h
    exact absurd h (by simp)
  rw [if_neg g2] at h
  by_cases g3 : (filteredIntervals (diffs (((l.filter (fun e => decide ((4 : ℚ) ≤ e.magnitude))).map
      Event.time).insertionSort (· ≤ ·)))).length < 3
  · rw [if_pos g3] at h
    exact absurd h (by simp)
  rw [if_neg g3] at h
  split at h
  rotate_left
  · exact absurd h (by simp)
  rename_i w sp su au heq1 heq2 heq3 heq4
  injection h with hrec
  subst hrec
  have hsiglen : 5 ≤ (l.filter (fun e => decide ((4 : ℚ) ≤ e.magnitude))).length := by omega
  have hsd : (l.filter (fun e => decide ((4 : ℚ) ≤ e.magnitude))).countP
        (fun e => decide (e.depth < (70 : ℚ))) +
      (l.filter (fun e => decide ((4 : ℚ) ≤ e.magnitude))).countP
        (fun e => decide ((70 : ℚ) ≤ e.depth)) =
      (l.filter (fun e => decide ((4 : ℚ) ≤ e.magnitude))).length := by
    rw [List.length_eq_countP_add_countP (fun e => decide (e.depth < (70 : ℚ)))]
    congr 1
    apply List.countP_congr
    intro e _
    simp [not_lt]
  have havgI : (30:ℚ) ≤ sampleMean (List.map (fun d : ℤ => ((d:ℚ)))
      (filteredIntervals (diffs (((l.filter (fun e => decide ((4 : ℚ) ≤ e.magnitude))).map
        Event.time).insertionSort (· ≤ ·))))) := by
    apply sampleMean_lower
    · rw [List.length_map]; omega
    · intro x hx
      rw [List.mem_map] at hx
      obtain ⟨d, hd, rfl⟩ := hx
      exact_mod_cast mem_filteredIntervals_lower hd
  have havgM : (4:ℚ) ≤ sampleMean ((l.filter (fun e => decide ((4 : ℚ) ≤ e.magnitude))).map
      Event.magnitude) := by
    apply sampleMean_lower
    · rw [List.length_map]; omega
    · intro x hx
      rw [List.mem_map] at hx
      obtain ⟨e, he, rfl⟩ := hx
      rw [List.mem_filter] at he
      exact of_decide_eq_true he.2
  refine ⟨⟨?_, ?_⟩, ⟨?_, ?_⟩, ?_, ?_, ?_, ?_⟩
  · dsimp only [depthConsistency]
    positivity
  · dsimp only [depthConsistency]
    rw [div_le_one (by exact_mod_cast Nat.lt_of_lt_of_le (by norm_num) hsiglen)]
    have : max ((l.filter (fun e => decide ((4 : ℚ) ≤ e.magnitude))).countP
          (fun e => decide (e.depth < (70 : ℚ))))
        ((l.filter (fun e => decide ((4 : ℚ) ≤ e.magnitude))).countP
          (fun e => decide ((70 : ℚ) ≤ e.depth))) ≤
        (l.filter (fun e => decide ((4 : ℚ) ≤ e.magnitude))).length := by omega
    exact_mod_cast this
  · dsimp only [seasonalConsistency]
    split_ifs with ht
    · positivity
    · norm_num
  · dsimp only [seasonalConsistency]
    split_ifs with ht
    · rw [div_le_one (by exact_mod_cast ht)]
      have hpick := foldl_season_pick ("winter", w)
        [("winter", w), ("spring", sp), ("summer", su), ("autumn", au)]
      have hle : (List.foldl (fun b p => if b.2 < p.2 then p else b) ("winter", w)
          [("winter", w), ("spring", sp), ("summer", su), ("autumn", au)]).2 ≤
          w + sp + su + au := by
        rcases hpick with hp | hp
        · rw [hp]; omega
        · simp only [List.mem_cons, List.not_mem_nil, or_false] at hp
          rcases hp with hp | hp | hp | hp <;> rw [hp] <;> omega
      exact_mod_cast hle
    · norm_num
  · unfold temporalConsistency stdInterval
    dsimp only
    split_ifs with hs
    · apply sub_le_self
      apply div_nonneg (Real.sqrt_nonneg _)
      exact_mod_cast le_trans (by norm_num : (0:ℚ) ≤ 30) havgI
    · norm_num
  · unfold magnitudeConsistency stdMagnitude
    dsimp only
    split_ifs with hs
    · apply sub_le_self
      apply div_nonneg (Real.sqrt_nonneg _)
      exact_mod_cast le_trans (by norm_num : (0:ℚ) ≤ 4) havgM
    · norm_num
  · intro hv
    unfold temporalConsistency stdInterval
    rw [hv]
    norm_num
  · intro hv
    unfold magnitudeConsistency stdMagnitude
    rw [hv]
    norm_num

/-- C9 counterexample: the analyzer's own output for `exRichEvents` has an
interval standard deviation larger than the mean interval
(√(262001144/91) ≈ 1697 > 7453/7 ≈ 1065), so the temporal consistency
metric `1 − std/mean` is negative — not within [0, 1] as claimed. -/
theorem temporalConsistency_negative :
    analyze exRichEvents exNow = .ok exRichAnalysis ∧
    temporalConsistency exRichAnalysis < 0 := by
  refine ⟨exRich_analyze, ?_⟩
  have hvar : exRichAnalysis.var_interval_days = 262001144/91 := by
    norm_num [exRichAnalysis]
  have havg : exRichAnalysis.avg_interval_days = 7453/7 := by
    norm_num [exRichAnalysis]
  unfold temporalConsistency stdInterval
  rw [hvar, havg]
  have hvpos : (0:ℝ) < ((262001144/91 : ℚ) : ℝ) := by norm_num
  rw [if_pos (Real.sqrt_pos.mpr hvpos)]
  have hapos : (0:ℝ) < ((7453/7 : ℚ) : ℝ) := by norm_num
  rw [sub_neg, lt_div_iff hapos, one_mul]
  apply (Real.lt_sqrt (le_of_lt hapos)).mpr
  push_cast
  norm_num

/-- Witness for the amended consistency-metric bounds at the analyzer's
output on `exRichEvents`. -/
theorem analyze_ok_metrics_witness :
    (0 ≤ depthConsistency exRichAnalysis ∧ depthConsistency exRichAnalysis ≤ 1) ∧
    (0 ≤ seasonalConsistency exRichAnalysis ∧ seasonalConsistency exRichAnalysis ≤ 1) ∧
    temporalConsistency exRichAnalysis ≤ 1 ∧ magnitudeConsistency exRichAnalysis ≤ 1 ∧
    (exRichAnalysis.var_interval_days = 0 → temporalConsistency exRichAnalysis = 4 / 5) ∧
    (exRichAnalysis.var_magnitude = 0 → magnitudeConsistency exRichAnalysis = 4 / 5) :=
  analyze_ok_metrics exRichEvents exNow exRichAnalysis exRich_analyze

/-! ## Calendar lemmas for the forecast dates -/

theorem daysBeforeMonth_le (b : Bool) (m : ℤ) : daysBeforeMonth b m ≤ 335 := by
  unfold daysBeforeMonth
  cases b <;> (dsimp only; split <;> simp)

theorem leapDays_mono_succ (y : ℕ) : leapDays y ≤ leapDays (y + 1) := by
  cases y with
  | zero => simp [leapDays]
  | succ n =>
    unfold leapDays
    simp only [Nat.add_sub_cancel]
    have h4 := Nat.succ_div n 4
    have h100 := Nat.succ_div n 100
    have h400 := Nat.succ_div n 400
    have himp : 100 ∣ n + 1 → 4 ∣ n + 1 := fun hd => dvd_trans (by norm_num) hd
    by_cases hc : 100 ∣ n + 1
    · have hc4 : 4 ∣ n + 1 := himp hc
      rw [h4, h100, h400, if_pos hc, if_pos hc4]
      split_ifs <;> push_cast <;> omega
    · rw [h4, h100, h400, if_neg hc]
      split_ifs <;> push_cast <;> omega

theorem pyOrdinal_lt_next_year (y : ℕ) (M m2 : ℤ) (D : ℕ) (hD : D ≤ 31) :
    pyOrdinal y M D < pyOrdinal (y + 1) m2 15 := by
  unfold pyOrdinal
  have h1 := daysBeforeMonth_le (isLeap y) M
  have h2 : (0:ℤ) ≤ (daysBeforeMonth (isLeap (y+1)) m2 : ℤ) := by positivity
  have h3 := leapDays_mono_succ y
  have hD' : ((D:ℤ)) ≤ 31 := by exact_mod_cast hD
  have h1' : ((daysBeforeMonth (isLeap y) M : ℕ) : ℤ) ≤ 335 := by exact_mod_cast h1
  push_cast
  omega

theorem weightedInterval_pos (a : Analysis) (hmed : 0 < a.median_interval_days)
    (hfreq : 0 ≤ a.recent_frequency) : 0 < weightedInterval a := by
  unfold weightedInterval
  split_ifs with h
  · have h1 : (0:ℚ) < a.median_interval_days * (3/5) := by positivity
    have h2 : (0:ℚ) < (36525/100) / a.recent_frequency * (2/5) := by positivity
    linarith
  · exact hmed

theorem expectedProjected_future (a : Analysis) (now : ℚ)
    (hw : 0 < weightedInterval a) : now < expectedProjected a now := by
  simp only [expectedProjected]
  split_ifs with h1 h2
  · linarith
  · push_neg at h2
    have : (30:ℚ) ≤ a.last_major_earthquake + weightedInterval a +
        weightedInterval a * ((⌊(⌊now - (a.last_major_earthquake + weightedInterval a)⌋ : ℚ) /
          weightedInterval a⌋ : ℚ) + 1) - now := by
      calc (30:ℚ) = ((30:ℤ):ℚ) := by norm_num
        _ ≤ _ := Int.le_floor.mp h2
    linarith
  · linarith

theorem expectedSnapped_future (a : Analysis) (nd : NowDT)
    (hw : 0 < weightedInterval a) (hD : nd.day ≤ 31) :
    nowOrd nd < expectedSnapped a nd := by
  simp only [expectedSnapped]
  split_ifs with h1 h2 h3
  · exact h2.1
  · have hlt := pyOrdinal_lt_next_year nd.year (nd.month : ℤ) (a.peak_months.headD 0) nd.day hD
    unfold nowOrd
    have : ((pyOrdinal nd.year (nd.month : ℤ) nd.day : ℤ) : ℚ) <
        ((pyOrdinal (nd.year + 1) (a.peak_months.headD 0) 15 : ℤ) : ℚ) := by
      exact_mod_cast hlt
    linarith
  · exact expectedProjected_future a (nowOrd nd) hw
  · exact expectedProjected_future a (nowOrd nd) hw

/-- C1: for every analysis that yields a forecast (given the analyzer's
invariants: positive median and mean intervals, nonnegative recent
frequency) and every generation time (any calendar day, `day ≤ 31`),
the forecast's predicted date and both bounds of its date range are
strictly after the generation time — no matter how far in the past the
last significant event lies, through the whole pipeline of cycle
advancement, the 30-day buffer, seasonal snapping and the final window
shift.  (The dates are deterministic given the analysis; the random
noise only affects magnitude/location.) -/
theorem forecastDates_future (a : Analysis) (nd : NowDT)
    (hmed : 0 < a.median_interval_days) (hfreq : 0 ≤ a.recent_frequency)
    (havg : 0 < a.avg_interval_days) (hD : nd.day ≤ 31) :
    ((nowOrd nd : ℚ) : ℝ) < (forecastDates a nd).predicted_date ∧
    ((nowOrd nd : ℚ) : ℝ) < (forecastDates a nd).range_start ∧
    ((nowOrd nd : ℚ) : ℝ) < (forecastDates a nd).range_end := by
  have hw := weightedInterval_pos a hmed hfreq
  have he := expectedSnapped_future a nd hw hD
  have hwR : (0:ℝ) < ((weightedInterval a : ℚ) : ℝ) := by exact_mod_cast hw
  have heR : ((nowOrd nd : ℚ) : ℝ) < ((expectedSnapped a nd : ℚ) : ℝ) := by exact_mod_cast he
  have hud : (0:ℝ) ≤ ((weightedInterval a : ℚ) : ℝ) *
      (if 0 < stdInterval a then min (3 / 10) (stdInterval a / ((a.avg_interval_days : ℚ) : ℝ))
       else 1 / 5) := by
    apply mul_nonneg (le_of_lt hwR)
    split_ifs with hs
    · apply le_min (by norm_num)
      apply div_nonneg (Real.sqrt_nonneg _)
      exact_mod_cast le_of_lt havg
    · norm_num
  have hfl := Int.lt_floor_add_one (((nowOrd nd : ℚ) : ℝ) -
      (((expectedSnapped a nd : ℚ) : ℝ) - ((weightedInterval a : ℚ) : ℝ) *
      (if 0 < stdInterval a then min (3 / 10) (stdInterval a / ((a.avg_interval_days : ℚ) : ℝ))
       else 1 / 5)))
  refine ⟨?_, ?_, ?_⟩ <;>
  · simp only [forecastDates]
    generalize hgen : (if 0 < stdInterval a
        then min (3 / 10) (stdInterval a / ((a.avg_interval_days : ℚ) : ℝ))
        else (1 / 5 : ℝ)) = uf at hud hfl ⊢
    split_ifs with hshift
    · dsimp only
      push_cast
      push_cast at hfl
      linarith
    · dsimp only
      push_neg at hshift
      linarith

/-- Witness for the future-dates theorem at the analyzer output
`exRichAnalysis` and generation time `exNow`. -/
theorem forecastDates_future_witness :
    ((nowOrd exNow : ℚ) : ℝ) < (forecastDates exRichAnalysis exNow).predicted_date ∧
    ((nowOrd exNow : ℚ) : ℝ) < (forecastDates exRichAnalysis exNow).range_start ∧
    ((nowOrd exNow : ℚ) : ℝ) < (forecastDates exRichAnalysis exNow).range_end :=
  forecastDates_future exRichAnalysis exNow (by norm_num [exRichAnalysis])
    (by norm_num [exRichAnalysis]) (by norm_num [exRichAnalysis]) (by norm_num [exNow])

/-! ## Recent-activity summarizer -/

theorem sorted_le_getLast {α : Type} {r : α → α → Prop} (hr : ∀ a : α, r a a) :
    ∀ (xs : List α) (h : xs ≠ []), List.Pairwise r xs → ∀ x ∈ xs, r x (xs.getLast h) := by
  intro xs
  induction xs with
  | nil => intro h; simp at h
  | cons a t ih =>
    intro h hp x hx
    cases t with
    | nil =>
      simp only [List.getLast_singleton]
      rcases List.mem_singleton.mp hx with rfl
      exact hr x
    | cons b t' =>
      rw [List.getLast_cons (by simp : b :: t' ≠ [])]
      rcases List.mem_cons.mp hx with rfl | hx'
      · exact (List.pairwise_cons.mp hp).1 _ (List.getLast_mem _)
      · exact ih (by simp) (List.pairwise_cons.mp hp).2 x hx'

/-- C7 counterexample: a region whose only event is a significant one 400
days old.  The trailing 365-day window is empty, so the summarizer
returns the all-zero record with `latest_significant = None` — it never
consults the full history, although the history does contain a
significant event, contrary to the claim. -/
theorem summary_empty_window_no_fallback :
    (4:ℚ) ≤ exOldEvent.magnitude ∧ exOldEvent.time < nowOrd exNow - 365 ∧
    getRecentSummary [exOldEvent] exNow =
      some { total_recent := 0, significant_recent := 0, latest_earthquake := none,
             latest_significant := none, days_since_latest := none,
             days_since_significant := none } := by
  refine ⟨by norm_num [exOldEvent, mkEv], ?_, ?_⟩
  · norm_num [exOldEvent, mkEv, nowOrd, exNow, pyOrdinal, leapDays, daysBeforeMonth, isLeap]
  · norm_num [getRecentSummary, exOldEvent, mkEv, nowOrd, exNow, pyOrdinal, leapDays,
      daysBeforeMonth, isLeap, List.insertionSort, List.orderedInsert, List.filter,
      Event.timeLE]

/-- C7 amended: whenever the trailing 365-day window holds at least one
event (of any magnitude) but no significant one, and the full region
history holds a significant event, the summarizer reports a
maximal-time significant event of the full history together with its
age in days.  When the trailing window is entirely empty the summarizer
instead returns the empty-state record with no fallback (see the
counterexample). -/
theorem getRecentSummary_fallback (l : List Event) (nd : NowDT)
    (hwin : ∃ e ∈ l, nowOrd nd - 365 ≤ e.time)
    (hnosig : ∀ e ∈ l, nowOrd nd - 365 ≤ e.time → e.magnitude < 4)
    (hsig : ∃ e ∈ l, (4:ℚ) ≤ e.magnitude) :
    ∃ r ev, getRecentSummary l nd = some r ∧
      r.latest_significant = some ev ∧ ev ∈ l ∧ (4:ℚ) ≤ ev.magnitude ∧
      (∀ e ∈ l, (4:ℚ) ≤ e.magnitude → e.time ≤ ev.time) ∧
      r.days_since_significant = some ⌊nowOrd nd - ev.time⌋ := by
  obtain ⟨e0, he0l, he0t⟩ := hwin
  have hlne : ¬(l.length = 0) := by
    intro h0
    rw [List.length_eq_zero] at h0
    subst h0
    cases he0l
  have hcdperm : (l.insertionSort Event.timeLE).Perm l := List.perm_insertionSort _ l
  have hcdsorted : List.Sorted Event.timeLE (l.insertionSort Event.timeLE) :=
    List.sorted_insertionSort _ l
  have he0cd : e0 ∈ l.insertionSort Event.timeLE := hcdperm.mem_iff.mpr he0l
  have hrecne : ¬(((l.insertionSort Event.timeLE).filter
      (fun e => decide (nowOrd nd - 365 ≤ e.time))).length = 0) := by
    intro h0
    rw [List.length_eq_zero] at h0
    have hmem : e0 ∈ (l.insertionSort Event.timeLE).filter
        (fun e => decide (nowOrd nd - 365 ≤ e.time)) :=
      List.mem_filter.mpr ⟨he0cd, by simpa using he0t⟩
    rw [h0] at hmem
    cases hmem
  have hrsig : ((l.insertionSort Event.timeLE).filter
      (fun e => decide (nowOrd nd - 365 ≤ e.time))).filter
      (fun e => decide ((4:ℚ) ≤ e.magnitude)) = [] := by
    rw [List.filter_eq_nil]
    intro e he
    rw [List.mem_filter] at he
    have het : nowOrd nd - 365 ≤ e.time := by simpa using he.2
    have hel : e ∈ l := hcdperm.mem_iff.mp he.1
    simpa using not_le.mpr (hnosig e hel het)
  obtain ⟨s0, hs0l, hs0m⟩ := hsig
  have hs0 : s0 ∈ (l.insertionSort Event.timeLE).filter
      (fun e => decide ((4:ℚ) ≤ e.magnitude)) :=
    List.mem_filter.mpr ⟨hcdperm.mem_iff.mpr hs0l, by simpa using hs0m⟩
  have hallne : (l.insertionSort Event.timeLE).filter
      (fun e => decide ((4:ℚ) ≤ e.magnitude)) ≠ [] := by
    intro h0
    rw [h0] at hs0
    cases hs0
  have hallsorted : List.Pairwise Event.timeLE ((l.insertionSort Event.timeLE).filter
      (fun e => decide ((4:ℚ) ≤ e.magnitude))) := hcdsorted.filter _
  have hlast := List.getLast?_eq_getLast _ hallne
  set ev := ((l.insertionSort Event.timeLE).filter
      (fun e => decide ((4:ℚ) ≤ e.magnitude))).getLast hallne with hevdef
  have heval : getRecentSummary l nd = some
      { total_recent := ((l.insertionSort Event.timeLE).filter
          (fun e => decide (nowOrd nd - 365 ≤ e.time))).length
        significant_recent := 0
        latest_earthquake := ((l.insertionSort Event.timeLE).filter
          (fun e => decide (nowOrd nd - 365 ≤ e.time))).getLast?
        latest_significant := some ev
        days_since_latest := (((l.insertionSort Event.timeLE).filter
          (fun e => decide (nowOrd nd - 365 ≤ e.time))).getLast?).map
            (fun e => ⌊nowOrd nd - e.time⌋)
        days_since_significant := some ⌊nowOrd nd - ev.time⌋ } := by
    simp only [getRecentSummary]
    rw [if_neg hlne, if_neg hrecne]
    rw [hrsig, hlast]
    simp
  refine ⟨_, ev, heval, rfl, ?_, ?_, ?_, rfl⟩
  · have hm := List.getLast_mem hallne
    rw [List.mem_filter] at hm
    exact hcdperm.mem_iff.mp hm.1
  · have hm := List.getLast_mem hallne
    rw [List.mem_filter] at hm
    exact of_decide_eq_true hm.2
  · intro e hel hem
    have hecd : e ∈ (l.insertionSort Event.timeLE).filter
        (fun e => decide ((4:ℚ) ≤ e.magnitude)) :=
      List.mem_filter.mpr ⟨hcdperm.mem_iff.mpr hel, by simpa using hem⟩
    exact sorted_le_getLast (r := Event.timeLE) (fun a => le_refl a.time) _ hallne
      hallsorted e hecd

/-- Witness for the amended summarizer-fallback claim: a region with one
significant event 400 days old and one sub-significant event inside the
trailing window. -/
theorem getRecentSummary_fallback_witness :
    ∃ r ev, getRecentSummary [exOldEvent, exFreshEvent] exNow = some r ∧
      r.latest_significant = some ev ∧ ev ∈ [exOldEvent, exFreshEvent] ∧
      (4:ℚ) ≤ ev.magnitude ∧
      (∀ e ∈ [exOldEvent, exFreshEvent], (4:ℚ) ≤ e.magnitude → e.time ≤ ev.time) ∧
      r.days_since_significant = some ⌊nowOrd exNow - ev.time⌋ := by
  apply getRecentSummary_fallback
  · refine ⟨exFreshEvent, List.mem_cons_of_mem _ (List.mem_cons_self _ _), ?_⟩
    norm_num [exFreshEvent, mkEv, nowOrd, exNow, pyOrdinal, leapDays, daysBeforeMonth, isLeap]
  · intro e he ht
    rcases List.mem_cons.mp he with rfl | he2
    · exfalso
      have hx : exOldEvent.time < nowOrd exNow - 365 := by
        norm_num [exOldEvent, mkEv, nowOrd, exNow, pyOrdinal, leapDays, daysBeforeMonth, isLeap]
      linarith
    · rcases List.mem_singleton.mp he2 with rfl
      norm_num [exFreshEvent, mkEv]
  · refine ⟨exOldEvent, List.mem_cons_self _ _, ?_⟩
    norm_num [exOldEvent, mkEv]

/-! ## Catalog merge -/

theorem dropDuplicates_go (l : List Event) :
    ∀ acc : List Event, (acc ++ l).Nodup →
      l.foldl (fun acc e => if e ∈ acc then acc else acc ++ [e]) acc = acc ++ l := by
  induction l with
  | nil => intro acc _; simp
  | cons e t ih =>
    intro acc hnd
    have hne : e ∉ acc := by
      intro hmem
      rw [List.nodup_append] at hnd
      exact hnd.2.2 hmem (List.mem_cons_self e t)
    simp only [List.foldl_cons, if_neg hne]
    have hnd' : ((acc ++ [e]) ++ t).Nodup := by
      rw [List.append_assoc, List.singleton_append]
      exact hnd
    rw [ih (acc ++ [e]) hnd', List.append_assoc]
    simp

theorem dropDuplicates_of_nodup {l : List Event} (h : l.Nodup) : dropDuplicates l = l := by
  have := dropDuplicates_go l [] (by simpa using h)
  simpa [dropDuplicates] using this

theorem le_maxTime {hist : List Event} {e : Event} (he : e ∈ hist) : e.time ≤ maxTime hist := by
  unfold maxTime
  have hmm : e.time ∈ hist.map Event.time := List.mem_map_of_mem _ he
  have hmem : e.time ∈ (hist.map Event.time).insertionSort (· ≤ ·) :=
    (List.perm_insertionSort _ _).mem_iff.mpr hmm
  have hne : (hist.map Event.time).insertionSort (· ≤ ·) ≠ [] := by
    intro h0
    rw [h0] at hmem
    cases hmem
  have hsorted := List.sorted_insertionSort (α := ℚ) (· ≤ ·) (hist.map Event.time)
  have hb := sorted_le_getLast (r := ((· ≤ ·) : ℚ → ℚ → Prop)) le_refl _ hne hsorted _ hmem
  rw [List.getLastD_eq_getLast?, List.getLast?_eq_getLast _ hne]
  exact hb

/-- C8: merging a live-feed batch whose events the catalog already contains
(with the catalog's rows pairwise distinct on the key (timestamp,
latitude, longitude, magnitude)) leaves the catalog without duplicated
entries under that key, ordered by ascending timestamp, as a permutation
of the original catalog, with each batch event counted exactly once. -/
theorem mergeCatalog_no_duplicates (hist recent : List Event)
    (hsub : ∀ e ∈ recent, e ∈ hist)
    (hkey : (hist.map dedupKey).Nodup) :
    ((mergeCatalog hist recent).map dedupKey).Nodup ∧
    List.Sorted Event.timeLE (mergeCatalog hist recent) ∧
    (mergeCatalog hist recent).Perm hist ∧
    ∀ e ∈ recent, (mergeCatalog hist recent).count e = 1 := by
  have hnew : (if hist.isEmpty then ([] : List Event)
      else recent.filter (fun e => decide (maxTime hist < e.time))) = [] := by
    split_ifs with hh
    · rfl
    · rw [List.filter_eq_nil]
      intro e he
      have hle : e.time ≤ maxTime hist := le_maxTime (hsub e he)
      simpa using not_lt.mpr hle
  have hnodup : hist.Nodup := List.Nodup.of_map _ hkey
  have hM : mergeCatalog hist recent = dropDuplicates (hist.insertionSort Event.timeLE) := by
    simp only [mergeCatalog]
    rw [hnew, List.append_nil]
  have hsp : (hist.insertionSort Event.timeLE).Perm hist := List.perm_insertionSort _ _
  have hsnodup : (hist.insertionSort Event.timeLE).Nodup := (hsp.nodup_iff).mpr hnodup
  have hdd : dropDuplicates (hist.insertionSort Event.timeLE) = hist.insertionSort Event.timeLE :=
    dropDuplicates_of_nodup hsnodup
  rw [hM, hdd]
  refine ⟨?_, List.sorted_insertionSort _ _, hsp, ?_⟩
  · exact ((hsp.map dedupKey).nodup_iff).mpr hkey
  · intro e he
    exact List.count_eq_one_of_mem hsnodup (hsp.mem_iff.mpr (hsub e he))

/-- Witness for the merge claim: a two-row catalog re-ingesting one of its
own rows. -/
theorem mergeCatalog_no_duplicates_witness :
    ((mergeCatalog [mkEv 2000 1 1 5, mkEv 2000 2 1 6] [mkEv 2000 2 1 6]).map dedupKey).Nodup ∧
    List.Sorted Event.timeLE (mergeCatalog [mkEv 2000 1 1 5, mkEv 2000 2 1 6] [mkEv 2000 2 1 6]) ∧
    (mergeCatalog [mkEv 2000 1 1 5, mkEv 2000 2 1 6] [mkEv 2000 2 1 6]).Perm
      [mkEv 2000 1 1 5, mkEv 2000 2 1 6] ∧
    ∀ e ∈ [mkEv 2000 2 1 6],
      (mergeCatalog [mkEv 2000 1 1 5, mkEv 2000 2 1 6] [mkEv 2000 2 1 6]).count e = 1 :=
  mergeCatalog_no_duplicates _ _
    (by
      intro e he
      rcases List.mem_singleton.mp he with rfl
      exact List.mem_cons_of_mem _ (List.mem_cons_self _ _))
    (by
      simp only [List.map_cons, List.map_nil, List.nodup_cons, List.mem_singleton,
        List.not_mem_nil, not_false_eq_true, List.nodup_nil, and_true]
      norm_num [dedupKey, mkEv, Prod.mk.injEq])

/-! ## Permutation invariance of the analyzer -/

theorem map_congr_mem {α β : Type} {f g : α → β} (l : List α)
    (h : ∀ a ∈ l, f a = g a) : l.map f = l.map g := by
  induction l with
  | nil => rfl
  | cons x xs ih =>
    simp only [List.map_cons]
    rw [h x (List.mem_cons_self x xs), ih (fun a ha => h a (List.mem_cons_of_mem _ ha))]

theorem insertionSort_perm_eq {α : Type} {r : α → α → Prop} [DecidableRel r]
    [IsTotal α r] [IsTrans α r] [IsAntisymm α r] {l1 l2 : List α} (h : l1.Perm l2) :
    l1.insertionSort r = l2.insertionSort r :=
  List.eq_of_perm_of_sorted
    (((List.perm_insertionSort _ l1).trans h).trans (List.perm_insertionSort _ l2).symm)
    (List.sorted_insertionSort _ l1) (List.sorted_insertionSort _ l2)

theorem sampleMean_perm {l1 l2 : List ℚ} (h : l1.Perm l2) : sampleMean l1 = sampleMean l2 := by
  unfold sampleMean
  rw [h.sum_eq, h.length_eq]

theorem sampleVar_perm {l1 l2 : List ℚ} (h : l1.Perm l2) : sampleVar l1 = sampleVar l2 := by
  unfold sampleVar
  rw [sampleMean_perm h, (h.map (fun x => (x - sampleMean l2) ^ 2)).sum_eq, h.length_eq]

theorem monthCounts_perm {s1 s2 : List Event} (h : s1.Perm s2) :
    monthCounts s1 = monthCounts s2 := by
  simp only [monthCounts]
  rw [insertionSort_perm_eq ((h.map Event.month).dedup)]
  apply map_congr_mem
  intro m _
  rw [(h.map Event.month).count_eq]

theorem dataQuality_perm {s1 s2 : List Event} (h : s1.Perm s2) (nd : NowDT) :
    dataQuality s1 nd = dataQuality s2 nd := by
  simp only [dataQuality]
  rw [insertionSort_perm_eq (h.map Event.time),
      insertionSort_perm_eq (h.map Event.magnitude), h.length_eq]

/-- C10: the analyzer is a pure function of the input event multiset —
two runs on catalogs holding the same events (same field values, any
order) return identical results, on every outcome branch. -/
theorem analyze_pure_of_perm {l1 l2 : List Event} (h : l1.Perm l2) (nd : NowDT) :
    analyze l1 nd = analyze l2 nd := by
  have hsig := h.filter (fun e => decide ((4 : ℚ) ≤ e.magnitude))
  have hrec := hsig.filter (fun e => decide ((nd.year : ℤ) - 10 ≤ e.year))
  have hinner : ∀ yl : List ℤ,
      yl.map (fun y => sampleMean ((((l1.filter (fun e => decide ((4 : ℚ) ≤ e.magnitude))).filter
          (fun e => decide ((nd.year : ℤ) - 10 ≤ e.year))).filter
          (fun e => e.year == y)).map Event.magnitude))
    = yl.map (fun y => sampleMean ((((l2.filter (fun e => decide ((4 : ℚ) ≤ e.magnitude))).filter
          (fun e => decide ((nd.year : ℤ) - 10 ≤ e.year))).filter
          (fun e => e.year == y)).map Event.magnitude)) := by
    intro yl
    apply map_congr_mem
    intro y _
    exact sampleMean_perm ((hrec.filter (fun e => e.year == y)).map Event.magnitude)
  simp only [analyze]
  rw [h.length_eq,
      hsig.length_eq,
      (h.filter (fun e => decide ((5 : ℚ) ≤ e.magnitude))).length_eq,
      dataQuality_perm hsig nd,
      insertionSort_perm_eq (hsig.map Event.time),
      monthCounts_perm hsig,
      hsig.countP_eq (fun e => decide ((nd.year : ℤ) - 20 ≤ e.year)),
      hsig.countP_eq (fun e => decide ((nd.year : ℤ) - 5 ≤ e.year)),
      hsig.countP_eq (fun e => decide (e.depth < (70 : ℚ))),
      hsig.countP_eq (fun e => decide ((70 : ℚ) ≤ e.depth)),
      sampleMean_perm (hsig.map Event.magnitude),
      sampleVar_perm (hsig.map Event.magnitude),
      insertionSort_perm_eq (hsig.map Event.magnitude),
      sampleMean_perm (hsig.map Event.depth),
      sampleVar_perm (hsig.map Event.depth),
      hrec.length_eq,
      insertionSort_perm_eq ((hrec.map Event.year).dedup),
      hinner]

/-- Witness for the purity claim: swapping the two rows of a concrete
catalog leaves the analyzer's output unchanged. -/
theorem analyze_pure_of_perm_witness :
    analyze [exOldEvent, exFreshEvent] exNow = analyze [exFreshEvent, exOldEvent] exNow :=
  analyze_pure_of_perm (List.Perm.swap exFreshEvent exOldEvent []) exNow
